import Mathlib

/-!
Verification development for the BS-Draft core: a shallow embedding of the
draft-state transition engine (`DraftState.cpp`), the rank-weighted statistics
aggregator (`StatsCalculator.cpp`, `AppConfig.cpp`), the heuristic scorer
(`Heuristics.cpp`) and the MCTS result ranking (`MCTS.cpp`), together with
proofs and refutations of the specified properties.

Modelling conventions: C++ `double` values are modelled as rationals (the code
performs only field operations and comparisons on them, apart from the final
logistic map which is modelled over the reals); `QSet` as `Finset`;
`QVector` as `List`; `QHash` as an association list looked up by key;
throwing functions return `Except`.
-/

namespace BSDraft

/-! ### DraftState (DraftState.h / DraftState.cpp) -/

structure DraftState where
  map : String
  mode : String
  masterBrawlerList : Finset String
  bans : Finset String
  team1Picks : List String
  team2Picks : List String
  turn : String
  pickNumber : Int
  available : Finset String
deriving DecidableEq

deriving instance DecidableEq for Except

/-- Model of `DraftState::updateAvailable`: start from the master list, remove the bans,
then remove every team-1 pick and every team-2 pick. -/
def updateAvailable (master bans : Finset String) (t1 t2 : List String) :
    Finset String :=
  t2.foldl Finset.erase (t1.foldl Finset.erase (master \ bans))

/-- The `DraftState` constructor: stores the fields and recomputes
`m_available` via `updateAvailable` (the validity check only warns). -/
def DraftState.make (map mode : String) (master bans : Finset String)
    (t1 t2 : List String) (turn : String) (pn : Int) : DraftState :=
  ⟨map, mode, master, bans, t1, t2, turn, pn, updateAvailable master bans t1 t2⟩

/-- Model of `DraftState::isComplete`: the draft is complete once the pick number
exceeds 6. -/
def DraftState.isComplete (s : DraftState) : Bool :=
  6 < s.pickNumber

/-- The turn table switched on `m_pickNumber` in `DraftState::applyMove`
(cases 1–5; case 6 and the default both yield the empty turn). -/
def nextTurnAfter (pn : Int) : String :=
  if pn = 1 then "team2"
  else if pn = 2 then "team2"
  else if pn = 3 then "team1"
  else if pn = 4 then "team1"
  else if pn = 5 then "team2"
  else ""

/-- Model of `DraftState::applyMove`: rejects a pick when the draft is complete, the
brawler is unavailable, the acting team is full, or the turn tag is invalid;
otherwise appends the pick to the acting team, advances the pick number and
takes the next turn from the fixed table. -/
def DraftState.applyMove (s : DraftState) (b : String) :
    Except String DraftState :=
  if s.isComplete then
    .error "Illegal move: Draft is already complete."
  else if b ∉ s.available then
    .error "Illegal move: Brawler is not available."
  else if s.turn = "team1" then
    if 3 ≤ s.team1Picks.length then
      .error "Illegal move: Team 1 already has 3 picks."
    else
      .ok (DraftState.make s.map s.mode s.masterBrawlerList s.bans
        (s.team1Picks ++ [b]) s.team2Picks
        (nextTurnAfter s.pickNumber) (s.pickNumber + 1))
  else if s.turn = "team2" then
    if 3 ≤ s.team2Picks.length then
      .error "Illegal move: Team 2 already has 3 picks."
    else
      .ok (DraftState.make s.map s.mode s.masterBrawlerList s.bans
        s.team1Picks (s.team2Picks ++ [b])
        (nextTurnAfter s.pickNumber) (s.pickNumber + 1))
  else
    .error "Illegal move: Invalid turn."

/-- Model of `DraftState::applyBan`: rejects the ban when 6 bans already exist or the
brawler is unavailable; otherwise inserts the brawler into the ban set without
touching turn or pick number.  Completion is not checked. -/
def DraftState.applyBan (s : DraftState) (b : String) :
    Except String DraftState :=
  if 6 ≤ s.bans.card then
    .error "Illegal ban: Maximum number of bans (6) already reached."
  else if b ∉ s.available then
    .error "Illegal ban: Brawler is not available for banning."
  else
    .ok (DraftState.make s.map s.mode s.masterBrawlerList
      (insert b s.bans) s.team1Picks s.team2Picks s.turn s.pickNumber)

/-- A fresh draft: no bans, no picks, team 1 to move, pick number 1
(the constructor defaults in `DraftState.h`). -/
def freshDraft (map mode : String) (master : Finset String) : DraftState :=
  DraftState.make map mode master ∅ [] [] "team1" 1

/-- States reachable from a start state by successful `applyMove` and
`applyBan` calls. -/
inductive ReachableFrom : DraftState → DraftState → Prop
  | refl (s : DraftState) : ReachableFrom s s
  | move {s0 s s' : DraftState} {b : String} :
      ReachableFrom s0 s → s.applyMove b = .ok s' → ReachableFrom s0 s'
  | ban {s0 s s' : DraftState} {b : String} :
      ReachableFrom s0 s → s.applyBan b = .ok s' → ReachableFrom s0 s'

/-- The turn tag held by a reachable state at a given pick number:
team 1 picks at 1, 4, 5; team 2 picks at 2, 3, 6; the empty tag once the
draft is complete. -/
def turnForPick (pn : Int) : String :=
  if pn = 1 then "team1"
  else if pn = 2 then "team2"
  else if pn = 3 then "team2"
  else if pn = 4 then "team1"
  else if pn = 5 then "team1"
  else if pn = 6 then "team2"
  else ""

/-- Invariant satisfied by every state reachable from a fresh draft. -/
def DraftState.Inv (master : Finset String) (s : DraftState) : Prop :=
  s.masterBrawlerList = master ∧
  s.team1Picks.length ≤ 3 ∧
  s.team2Picks.length ≤ 3 ∧
  s.bans.card ≤ 6 ∧
  (∀ b ∈ s.team1Picks, b ∉ s.bans) ∧
  (∀ b ∈ s.team2Picks, b ∉ s.bans) ∧
  (∀ b ∈ s.team1Picks, b ∉ s.team2Picks) ∧
  (∀ b, b ∈ s.available ↔
    b ∈ master ∧ b ∉ s.bans ∧ b ∉ s.team1Picks ∧ b ∉ s.team2Picks) ∧
  1 ≤ s.pickNumber ∧ s.pickNumber ≤ 7 ∧
  s.turn = turnForPick s.pickNumber

theorem mem_foldl_erase (l : List String) (s : Finset String) (b : String) :
    b ∈ l.foldl Finset.erase s ↔ b ∈ s ∧ b ∉ l := by
  induction l generalizing s with
  | nil => simp
  | cons a l ih =>
    simp only [List.foldl_cons, ih, Finset.mem_erase, List.mem_cons]
    tauto

theorem mem_updateAvailable (master bans : Finset String)
    (t1 t2 : List String) (b : String) :
    b ∈ updateAvailable master bans t1 t2 ↔
      b ∈ master ∧ b ∉ bans ∧ b ∉ t1 ∧ b ∉ t2 := by
  simp only [updateAvailable, mem_foldl_erase, Finset.mem_sdiff]
  tauto

theorem nextTurnAfter_eq_turnForPick (pn : Int) (h1 : 1 ≤ pn) (h6 : pn ≤ 6) :
    nextTurnAfter pn = turnForPick (pn + 1) := by
  interval_cases pn <;> rfl

theorem inv_fresh (map mode : String) (master : Finset String) :
    (freshDraft map mode master).Inv master := by
  refine ⟨rfl, ?_, ?_, ?_, ?_, ?_, ?_, ?_, ?_, ?_, ?_⟩ <;>
    norm_num [freshDraft, DraftState.make, mem_updateAvailable, turnForPick,
      DraftState.Inv]

theorem inv_applyMove {master : Finset String} {s s' : DraftState} {b : String}
    (h : s.Inv master) (hm : s.applyMove b = .ok s') : s'.Inv master := by
  obtain ⟨hmast, hl1, hl2, hbc, hd1, hd2, hd12, hav, hpn1, hpn7, hturn⟩ := h
  unfold DraftState.applyMove at hm
  split_ifs at hm with hc hna ht1 hf1 ht2 hf2
  · -- team 1 picks
    injection hm with hm
    subst hm
    have hcpn : ¬ (6 : Int) < s.pickNumber := by
      simpa [DraftState.isComplete] using hc
    have hb := (hav b).mp (by simpa using hna)
    obtain ⟨hbm, hbb, hb1, hb2⟩ := hb
    simp only [DraftState.Inv, DraftState.make]
    refine ⟨hmast, ?_, hl2, hbc, ?_, hd2, ?_, ?_, by omega, by omega, ?_⟩
    · simp only [List.length_append, List.length_cons, List.length_nil]
      omega
    · intro x hx
      rcases List.mem_append.mp hx with hx | hx
      · exact hd1 x hx
      · simp at hx; subst hx; exact hbb
    · intro x hx
      rcases List.mem_append.mp hx with hx | hx
      · exact hd12 x hx
      · simp at hx; subst hx; exact hb2
    · intro x
      rw [mem_updateAvailable, hmast]
    · exact nextTurnAfter_eq_turnForPick s.pickNumber (by omega) (by omega)
  · -- team 2 picks
    injection hm with hm
    subst hm
    have hcpn : ¬ (6 : Int) < s.pickNumber := by
      simpa [DraftState.isComplete] using hc
    have hb := (hav b).mp (by simpa using hna)
    obtain ⟨hbm, hbb, hb1, hb2⟩ := hb
    simp only [DraftState.Inv, DraftState.make]
    refine ⟨hmast, hl1, ?_, hbc, hd1, ?_, ?_, ?_, by omega, by omega, ?_⟩
    · simp only [List.length_append, List.length_cons, List.length_nil]
      omega
    · intro x hx
      rcases List.mem_append.mp hx with hx | hx
      · exact hd2 x hx
      · simp at hx; subst hx; exact hbb
    · intro x hx
      intro hx2
      rcases List.mem_append.mp hx2 with hx2 | hx2
      · exact hd12 x hx hx2
      · simp at hx2; subst hx2; exact hb1 hx
    · intro x
      rw [mem_updateAvailable, hmast]
    · exact nextTurnAfter_eq_turnForPick s.pickNumber (by omega) (by omega)

theorem inv_applyBan {master : Finset String} {s s' : DraftState} {b : String}
    (h : s.Inv master) (hm : s.applyBan b = .ok s') : s'.Inv master := by
  obtain ⟨hmast, hl1, hl2, hbc, hd1, hd2, hd12, hav, hpn1, hpn7, hturn⟩ := h
  unfold DraftState.applyBan at hm
  split_ifs at hm with hfull hna
  · injection hm with hm
    subst hm
    have hb := (hav b).mp (by simpa using hna)
    obtain ⟨hbm, hbb, hb1, hb2⟩ := hb
    simp only [DraftState.Inv, DraftState.make]
    refine ⟨hmast, hl1, hl2, ?_, ?_, ?_, hd12, ?_, hpn1, hpn7, hturn⟩
    · rw [Finset.card_insert_of_not_mem hbb]
      omega
    · intro x hx
      simp only [Finset.mem_insert, not_or]
      exact ⟨fun he => hb1 (he ▸ hx), hd1 x hx⟩
    · intro x hx
      simp only [Finset.mem_insert, not_or]
      exact ⟨fun he => hb2 (he ▸ hx), hd2 x hx⟩
    · intro x
      rw [mem_updateAvailable, hmast]

theorem inv_reachable {map mode : String} {master : Finset String}
    {s : DraftState} (h : ReachableFrom (freshDraft map mode master) s) :
    s.Inv master := by
  induction h with
  | refl => exact inv_fresh map mode master
  | move _ hm ih => exact inv_applyMove ih hm
  | ban _ hb ih => exact inv_applyBan ih hb

theorem applyMove_ok_fields {s s' : DraftState} {b : String}
    (hm : s.applyMove b = .ok s') :
    s'.turn = nextTurnAfter s.pickNumber ∧
      s'.pickNumber = s.pickNumber + 1 := by
  unfold DraftState.applyMove at hm
  split_ifs at hm <;> (injection hm with hm; subst hm; exact ⟨rfl, rfl⟩)

/-- Concrete data used by the witnesses below. -/
def demoMaster : Finset String :=
  {"Shelly", "Colt", "Bull", "Jessie", "Brock", "Dynamike", "Bo"}

/-- Apply a move, keeping the old state on failure (witness helper). -/
def pickD (s : DraftState) (b : String) : DraftState :=
  ((s.applyMove b).toOption).getD s

def demoS1 : DraftState := pickD (freshDraft "m" "g" demoMaster) "Shelly"
def demoS2 : DraftState := pickD demoS1 "Colt"
def demoS3 : DraftState := pickD demoS2 "Bull"
def demoS4 : DraftState := pickD demoS3 "Jessie"
def demoS5 : DraftState := pickD demoS4 "Brock"
def demoS6 : DraftState := pickD demoS5 "Dynamike"

/-- A completed draft (pick number 7, empty turn) used by the C9 witness. -/
def demoComplete : DraftState :=
  DraftState.make "m" "g" demoMaster ∅ ["Shelly", "Colt", "Bull"]
    ["Jessie", "Brock", "Dynamike"] "" 7

/-- C2: for every `DraftState` reachable from a fresh draft by successful
`applyMove`/`applyBan` calls, the team pick lists have at most 3 elements,
the ban set has at most 6 elements, bans/team-1 picks/team-2 picks are
pairwise disjoint, and the available set is exactly the master set minus
bans minus team-1 picks minus team-2 picks. -/
theorem reachable_state_invariants (map mode : String) (master : Finset String)
    (s : DraftState) (h : ReachableFrom (freshDraft map mode master) s) :
    s.team1Picks.length ≤ 3 ∧ s.team2Picks.length ≤ 3 ∧ s.bans.card ≤ 6 ∧
    (∀ b ∈ s.team1Picks, b ∉ s.bans) ∧
    (∀ b ∈ s.team2Picks, b ∉ s.bans) ∧
    (∀ b ∈ s.team1Picks, b ∉ s.team2Picks) ∧
    (∀ b, b ∈ s.available ↔
      b ∈ s.masterBrawlerList ∧ b ∉ s.bans ∧ b ∉ s.team1Picks ∧
        b ∉ s.team2Picks) := by
  obtain ⟨hmast, hl1, hl2, hbc, hd1, hd2, hd12, hav, _, _, _⟩ := inv_reachable h
  exact ⟨hl1, hl2, hbc, hd1, hd2, hd12, fun b => by rw [hmast]; exact hav b⟩

theorem reachable_state_invariants_witness :
    ReachableFrom (freshDraft "m" "g" demoMaster)
        (freshDraft "m" "g" demoMaster) ∧
      (freshDraft "m" "g" demoMaster).team1Picks.length ≤ 3 :=
  ⟨.refl _,
    (reachable_state_invariants "m" "g" demoMaster _ (.refl _)).1⟩

/-- C3: on a reachable state, `applyMove` fails exactly when the draft is
complete, or the brawler is unavailable, or the acting team already holds 3
picks; `applyBan` fails exactly when 6 bans already exist or the brawler is
unavailable.  The receiver is unchanged by a failing call by construction:
both operations are pure functions of the value state (const methods that
throw before constructing the successor state). -/
theorem apply_failure_conditions (map mode : String) (master : Finset String)
    (s : DraftState) (b : String)
    (h : ReachableFrom (freshDraft map mode master) s) :
    ((∃ e, s.applyMove b = .error e) ↔
      s.isComplete = true ∨ b ∉ s.available ∨
        (s.turn = "team1" ∧ 3 ≤ s.team1Picks.length) ∨
        (s.turn = "team2" ∧ 3 ≤ s.team2Picks.length)) ∧
    ((∃ e, s.applyBan b = .error e) ↔ 6 ≤ s.bans.card ∨ b ∉ s.available) := by
  obtain ⟨hmast, hl1, hl2, hbc, hd1, hd2, hd12, hav, hpn1, hpn7, hturn⟩ :=
    inv_reachable h
  have hne : ("team1" : String) ≠ "team2" := by decide
  constructor
  · unfold DraftState.applyMove
    split_ifs with hc hna ht1 hf1 ht2 hf2
    · simp only [Except.error.injEq, exists_eq', true_iff]
      exact Or.inl hc
    · simp only [Except.error.injEq, exists_eq', true_iff]
      exact Or.inr (Or.inr (Or.inl ⟨ht1, hf1⟩))
    · simp only [reduceCtorEq, exists_false, false_iff]
      push_neg
      exact ⟨hc, hna, fun _ => not_le.mp hf1, fun hh => absurd (ht1.symm.trans hh) hne⟩
    · simp only [Except.error.injEq, exists_eq', true_iff]
      exact Or.inr (Or.inr (Or.inr ⟨ht2, hf2⟩))
    · simp only [reduceCtorEq, exists_false, false_iff]
      push_neg
      exact ⟨hc, hna, fun hh => absurd hh ht1, fun _ => not_le.mp hf2⟩
    · -- invalid turn tag: impossible on a reachable incomplete state
      exfalso
      have hpn6 : s.pickNumber ≤ 6 := by
        simp only [DraftState.isComplete, decide_eq_true_eq] at hc
        omega
      have hv : s.turn = "team1" ∨ s.turn = "team2" := by
        rw [hturn]; unfold turnForPick
        split_ifs <;> first | (left; rfl) | (right; rfl) | omega
      rcases hv with hv | hv
      · exact ht1 hv
      · exact ht2 hv
    · simp only [Except.error.injEq, exists_eq', true_iff]
      exact Or.inr (Or.inl hna)
  · unfold DraftState.applyBan
    split_ifs with hfull hna
    · simp only [Except.error.injEq, exists_eq', true_iff]
      exact Or.inl hfull
    · simp only [reduceCtorEq, exists_false, false_iff]
      push_neg
      exact ⟨by omega, hna⟩
    · simp only [Except.error.injEq, exists_eq', true_iff]
      exact Or.inr hna

theorem apply_failure_conditions_witness :
    ∃ e, (freshDraft "m" "g" demoMaster).applyMove "Ghost" = Except.error e :=
  ((apply_failure_conditions "m" "g" demoMaster _ "Ghost" (.refl _)).1).mpr
    (Or.inr (Or.inl (by decide)))

/-- C4: starting from a fresh draft, the turns at picks 1 through 6 of any
six successful picks are exactly team1, team2, team2, team1, team1, team2;
after the sixth pick the turn is empty and the pick number is 7; and for
every reachable state `isComplete` holds iff the pick number is 7. -/
theorem draft_turn_order (map mode : String) (master : Finset String)
    (b1 b2 b3 b4 b5 b6 : String) (s1 s2 s3 s4 s5 s6 : DraftState)
    (h1 : (freshDraft map mode master).applyMove b1 = .ok s1)
    (h2 : s1.applyMove b2 = .ok s2) (h3 : s2.applyMove b3 = .ok s3)
    (h4 : s3.applyMove b4 = .ok s4) (h5 : s4.applyMove b5 = .ok s5)
    (h6 : s5.applyMove b6 = .ok s6) :
    (freshDraft map mode master).turn = "team1" ∧ s1.turn = "team2" ∧
    s2.turn = "team2" ∧ s3.turn = "team1" ∧ s4.turn = "team1" ∧
    s5.turn = "team2" ∧ s6.turn = "" ∧ s6.pickNumber = 7 ∧
    ∀ s, ReachableFrom (freshDraft map mode master) s →
      (s.isComplete = true ↔ s.pickNumber = 7) := by
  have f1 := applyMove_ok_fields h1
  have f2 := applyMove_ok_fields h2
  have f3 := applyMove_ok_fields h3
  have f4 := applyMove_ok_fields h4
  have f5 := applyMove_ok_fields h5
  have f6 := applyMove_ok_fields h6
  have hp0 : (freshDraft map mode master).pickNumber = 1 := rfl
  have p1 : s1.pickNumber = 2 := by rw [f1.2, hp0]; try decide
  have p2 : s2.pickNumber = 3 := by rw [f2.2, p1]; try decide
  have p3 : s3.pickNumber = 4 := by rw [f3.2, p2]; try decide
  have p4 : s4.pickNumber = 5 := by rw [f4.2, p3]; try decide
  have p5 : s5.pickNumber = 6 := by rw [f5.2, p4]; try decide
  refine ⟨rfl, ?_, ?_, ?_, ?_, ?_, ?_, ?_, ?_⟩
  · rw [f1.1, hp0]; rfl
  · rw [f2.1, p1]; rfl
  · rw [f3.1, p2]; rfl
  · rw [f4.1, p3]; rfl
  · rw [f5.1, p4]; rfl
  · rw [f6.1, p5]; rfl
  · rw [f6.2, p5]; try decide
  · intro s hs
    obtain ⟨_, _, _, _, _, _, _, _, hpn1, hpn7, _⟩ := inv_reachable hs
    simp only [DraftState.isComplete, decide_eq_true_eq]
    omega

theorem draft_turn_order_witness :
    demoS1.turn = "team2" ∧ demoS2.turn = "team2" ∧ demoS3.turn = "team1" ∧
    demoS4.turn = "team1" ∧ demoS5.turn = "team2" ∧ demoS6.turn = "" ∧
    demoS6.pickNumber = 7 :=
  have h := draft_turn_order "m" "g" demoMaster "Shelly" "Colt" "Bull"
    "Jessie" "Brock" "Dynamike" demoS1 demoS2 demoS3 demoS4 demoS5 demoS6
    (by decide) (by decide) (by decide) (by decide) (by decide) (by decide)
  ⟨h.2.1, h.2.2.1, h.2.2.2.1, h.2.2.2.2.1, h.2.2.2.2.2.1,
    h.2.2.2.2.2.2.1, h.2.2.2.2.2.2.2.1⟩

/-- C9: `applyBan` never checks draft completion: on any state, in particular
a completed one, a ban succeeds whenever fewer than 6 bans exist and the
brawler is still available (the completion hypothesis is never used). -/
theorem applyBan_ignores_completion (s : DraftState) (b : String)
    (_hc : s.isComplete = true) (hb : s.bans.card < 6) (ha : b ∈ s.available) :
    s.applyBan b = .ok (DraftState.make s.map s.mode s.masterBrawlerList
      (insert b s.bans) s.team1Picks s.team2Picks s.turn s.pickNumber) := by
  unfold DraftState.applyBan
  rw [if_neg (by omega), if_neg (not_not_intro ha)]

theorem applyBan_ignores_completion_witness :
    demoComplete.isComplete = true ∧ demoComplete.bans.card < 6 ∧
    "Bo" ∈ demoComplete.available ∧
    demoComplete.applyBan "Bo" = .ok (DraftState.make demoComplete.map
      demoComplete.mode demoComplete.masterBrawlerList
      (insert "Bo" demoComplete.bans) demoComplete.team1Picks
      demoComplete.team2Picks demoComplete.turn demoComplete.pickNumber) :=
  ⟨by decide, by decide, by decide,
    applyBan_ignores_completion demoComplete "Bo" (by decide) (by decide)
      (by decide)⟩

/-! ### AppConfig (AppConfig.h / AppConfig.cpp)

The configuration surface read by the aggregator.  `rankWeightDivisorRaw`
models the raw `RankWeightDivisor` value stored in the settings file; the
getter substitutes 1.0 for a non-positive stored value. -/

structure AppConfigData where
  smoothingK : ℚ
  minRank : Int
  maxRankConsidered : Int
  rankWeightDivisorRaw : ℚ
  lowPickRateThreshold : ℚ
  lowConfidenceWinRateTarget : ℚ
deriving DecidableEq

/-- Model of `AppConfig::rankWeightScaleDivisor`: returns 1.0 when the configured
divisor is zero or negative. -/
def AppConfigData.rankWeightScaleDivisor (c : AppConfigData) : ℚ :=
  if c.rankWeightDivisorRaw ≤ 0 then 1 else c.rankWeightDivisorRaw

/-- Model of `AppConfig::getRankWeight`: clamp the rank into
`[minRank, maxRankConsidered]`, then
`max(0.1, (clampedRank − minRank + divisor) / divisor)`. -/
def AppConfigData.getRankWeight (c : AppConfigData) (rank : Int) : ℚ :=
  let clampedRank := max c.minRank (min rank c.maxRankConsidered)
  let divisor := c.rankWeightScaleDivisor
  let weight := (((clampedRank - c.minRank : Int) : ℚ) + divisor) / divisor
  max (1/10) weight

/-! ### StatsCalculator (StatsCalculator.h / StatsCalculator.cpp)

`QHash` tables are modelled as association lists; `BrawlerStats` (atomic) and
`BrawlerStatsData` (plain) both carry weighted wins and plays. -/

structure BrawlerStatsQ where
  wins : ℚ
  plays : ℚ
deriving DecidableEq

structure MapModeStatsQ where
  brawlerStats : List (String × BrawlerStatsQ)
  synergyStats : List (String × BrawlerStatsQ)
  counterStats : List (String × BrawlerStatsQ)
  totalWeightedPlays : ℚ
deriving DecidableEq

/-- The calculator storage `m_stats : QHash<map, QHash<mode, MapModeStats>>`. -/
abbrev StatsTable := List (String × List (String × MapModeStatsQ))

/-- Model of `QHash` lookup on an association list. -/
def alookup {β : Type} : List (String × β) → String → Option β
  | [], _ => none
  | (k, v) :: rest, key => if k = key then some v else alookup rest key

/-- Model of `sortedPairKey` from DataStructures.h: canonical unordered pair key. -/
def sortedPairKey (b1 b2 : String) : String :=
  if b1 < b2 then b1 ++ "|" ++ b2 else b2 ++ "|" ++ b1

/-- Model of `counterPairKey` from DataStructures.h: ordered matchup key. -/
def counterPairKey (bUs bThem : String) : String :=
  bUs ++ "|" ++ bThem

/-- Model of `StatsCalculator::getMapModeStats`: nested lookup, `none` for a missing
map or mode bucket (the C++ version returns `nullptr`). -/
def getMapModeStats (stats : StatsTable) (mapName mode : String) :
    Option MapModeStatsQ :=
  match alookup stats mapName with
  | none => none
  | some inner => alookup inner mode

/-- Model of `StatsCalculator::getPickRate`: no data when the bucket is missing or its
total weighted plays is non-positive; otherwise brawler plays over total
plays (an unseen brawler contributes 0 plays). -/
def getPickRate (stats : StatsTable) (brawler mapName mode : String) :
    Option ℚ :=
  match getMapModeStats stats mapName mode with
  | none => none
  | some ms =>
    if ms.totalWeightedPlays ≤ 0 then none
    else
      let brawlerPlays :=
        match alookup ms.brawlerStats brawler with
        | some bs => bs.plays
        | none => 0
      if ms.totalWeightedPlays ≤ 0 then some 0
      else some (brawlerPlays / ms.totalWeightedPlays)

/-- Model of `StatsCalculator::getWinRate`: `none` for an unknown bucket; the
low-confidence target for an unseen brawler or a degenerate `plays + k ≤ 0`;
otherwise the Laplace-smoothed rate blended toward the low-confidence target
by the pick-rate confidence factor and clamped to `[0, 1]`. -/
def getWinRate (cfg : AppConfigData) (stats : StatsTable)
    (brawler mapName mode : String) : Option ℚ :=
  match getMapModeStats stats mapName mode with
  | none => none
  | some ms =>
    match alookup ms.brawlerStats brawler with
    | none => some cfg.lowConfidenceWinRateTarget
    | some bs =>
      let plays := bs.plays
      let wins := bs.wins
      let k := cfg.smoothingK
      if plays + k ≤ 0 then some cfg.lowConfidenceWinRateTarget
      else
        let smoothedWinRate := (wins + k * (1/2)) / (plays + k)
        let pickRate := (getPickRate stats brawler mapName mode).getD 0
        let confidenceFactor :=
          if 0 < cfg.lowPickRateThreshold then
            max 0 (min 1 (pickRate / cfg.lowPickRateThreshold))
          else 1
        let adjustedWinRate := smoothedWinRate * confidenceFactor +
          cfg.lowConfidenceWinRateTarget * (1 - confidenceFactor)
        some (max 0 (min 1 adjustedWinRate))

/-- Model of `StatsCalculator::getSynergyScore`: 0.5 for a missing bucket, missing
pair, or degenerate smoothing; otherwise the clamped smoothed pair rate. -/
def getSynergyScore (cfg : AppConfigData) (stats : StatsTable)
    (b1 b2 mapName mode : String) : ℚ :=
  match getMapModeStats stats mapName mode with
  | none => 1/2
  | some ms =>
    match alookup ms.synergyStats (sortedPairKey b1 b2) with
    | none => 1/2
    | some ps =>
      if ps.plays + cfg.smoothingK ≤ 0 then 1/2
      else
        max 0 (min 1
          ((ps.wins + cfg.smoothingK * (1/2)) / (ps.plays + cfg.smoothingK)))

/-- Model of `StatsCalculator::getCounterScore`: 0.5 for a missing bucket, missing
matchup, or degenerate smoothing; otherwise the clamped smoothed matchup
rate. -/
def getCounterScore (cfg : AppConfigData) (stats : StatsTable)
    (bUs bThem mapName mode : String) : ℚ :=
  match getMapModeStats stats mapName mode with
  | none => 1/2
  | some ms =>
    match alookup ms.counterStats (counterPairKey bUs bThem) with
    | none => 1/2
    | some cs =>
      if cs.plays + cfg.smoothingK ≤ 0 then 1/2
      else
        max 0 (min 1
          ((cs.wins + cfg.smoothingK * (1/2)) / (cs.plays + cfg.smoothingK)))

/-! ### Persisted-cache conversions (C6) -/

/-- Non-atomic `BrawlerStatsData` used by the cache. -/
structure BrawlerStatsDataQ where
  wins : ℚ
  plays : ℚ
deriving DecidableEq

/-- Non-atomic `MapModeStatsData` used by the cache. -/
structure MapModeStatsDataQ where
  brawlerStats : List (String × BrawlerStatsDataQ)
  synergyStats : List (String × BrawlerStatsDataQ)
  counterStats : List (String × BrawlerStatsDataQ)
  totalWeightedPlays : ℚ
deriving DecidableEq

/-- The `StatsContainer` of `CacheData`. -/
abbrev CacheStats := List (String × List (String × MapModeStatsDataQ))

def toDataStats (bs : BrawlerStatsQ) : BrawlerStatsDataQ :=
  ⟨bs.wins, bs.plays⟩

def ofDataStats (bs : BrawlerStatsDataQ) : BrawlerStatsQ :=
  ⟨bs.wins, bs.plays⟩

/-- Model of `StatsCalculator::getStatsForCache`: copy every bucket, entry by entry,
loading each atomic counter into the plain cache structure. -/
def getStatsForCache (stats : StatsTable) : CacheStats :=
  stats.map (fun entry =>
    (entry.1, entry.2.map (fun modeEntry =>
      (modeEntry.1,
        ⟨modeEntry.2.brawlerStats.map (fun p => (p.1, toDataStats p.2)),
         modeEntry.2.synergyStats.map (fun p => (p.1, toDataStats p.2)),
         modeEntry.2.counterStats.map (fun p => (p.1, toDataStats p.2)),
         modeEntry.2.totalWeightedPlays⟩))))

/-- Model of `StatsCalculator::setStatsFromCacheData`: clear the table and copy every
cached bucket back, entry by entry, storing each plain counter into the
atomic structure. -/
def setStatsFromCacheData (cache : CacheStats) : StatsTable :=
  cache.map (fun entry =>
    (entry.1, entry.2.map (fun modeEntry =>
      (modeEntry.1,
        ⟨modeEntry.2.brawlerStats.map (fun p => (p.1, ofDataStats p.2)),
         modeEntry.2.synergyStats.map (fun p => (p.1, ofDataStats p.2)),
         modeEntry.2.counterStats.map (fun p => (p.1, ofDataStats p.2)),
         modeEntry.2.totalWeightedPlays⟩))))

/-- Concrete configuration matching the `AppConfig.h` defaults, used by
witnesses. -/
def demoCfg : AppConfigData :=
  ⟨2, 10, 22, 3, 3/100, 0⟩

/-- Concrete (map, mode) bucket used by witnesses. -/
def demoMMS : MapModeStatsQ :=
  ⟨[("Shelly", ⟨3, 4⟩)], [], [], 10⟩

/-- Concrete statistics table used by witnesses. -/
def demoStats : StatsTable :=
  [("m", [("g", demoMMS)])]

/-! ### Claims about the configuration and the aggregator -/

/-- C10: for every integer rank the rank weight is at least 1 (the divisor
getter substitutes 1.0 for a non-positive configured divisor, the clamped
rank is at least `minRank`, so the `max(0.1, ·)` floor never takes effect),
and the rank weight is monotonically non-decreasing in the rank. -/
theorem getRankWeight_ge_one_and_monotone (c : AppConfigData) :
    (∀ r : Int, 1 ≤ c.getRankWeight r) ∧
    ∀ r1 r2 : Int, r1 ≤ r2 → c.getRankWeight r1 ≤ c.getRankWeight r2 := by
  have hd : 0 < c.rankWeightScaleDivisor := by
    unfold AppConfigData.rankWeightScaleDivisor
    split_ifs with h0
    · norm_num
    · exact lt_of_not_le h0
  constructor
  · intro r
    unfold AppConfigData.getRankWeight
    apply le_max_of_le_right
    rw [le_div_iff hd]
    have h1 : (0 : ℚ) ≤
        ((max c.minRank (min r c.maxRankConsidered) - c.minRank : Int) : ℚ) := by
      have h2 : c.minRank ≤ max c.minRank (min r c.maxRankConsidered) :=
        le_max_left _ _
      exact_mod_cast Int.sub_nonneg.mpr h2
    linarith
  · intro r1 r2 h
    unfold AppConfigData.getRankWeight
    apply max_le_max (le_refl _)
    have h2 : (max c.minRank (min r1 c.maxRankConsidered) - c.minRank : Int) ≤
        (max c.minRank (min r2 c.maxRankConsidered) - c.minRank : Int) := by
      have h4 := min_le_min (le_refl c.maxRankConsidered) h
      omega
    have h3 : ((max c.minRank (min r1 c.maxRankConsidered) - c.minRank : Int) : ℚ) ≤
        ((max c.minRank (min r2 c.maxRankConsidered) - c.minRank : Int) : ℚ) :=
      Int.cast_le.mpr h2
    rw [div_le_div_iff hd hd]
    have h5 := mul_le_mul_of_nonneg_right
      (add_le_add_right h3 c.rankWeightScaleDivisor) (le_of_lt hd)
    linarith

theorem getRankWeight_witness :
    1 ≤ demoCfg.getRankWeight 15 ∧
      demoCfg.getRankWeight 12 ≤ demoCfg.getRankWeight 20 :=
  ⟨(getRankWeight_ge_one_and_monotone demoCfg).1 15,
    (getRankWeight_ge_one_and_monotone demoCfg).2 12 20 (by decide)⟩

/-- C7: `getSynergyScore` and `getCounterScore` return exactly 0.5 whenever
the (map, mode) bucket is unknown or the queried pair key is absent from the
bucket; both are total functions into the rationals, so they always return a
definite value and never signal absence of data. -/
theorem synergy_counter_neutral (cfg : AppConfigData) (stats : StatsTable)
    (b1 b2 mapName mode : String) :
    (getMapModeStats stats mapName mode = none →
      getSynergyScore cfg stats b1 b2 mapName mode = 1/2 ∧
      getCounterScore cfg stats b1 b2 mapName mode = 1/2) ∧
    (∀ ms, getMapModeStats stats mapName mode = some ms →
      (alookup ms.synergyStats (sortedPairKey b1 b2) = none →
        getSynergyScore cfg stats b1 b2 mapName mode = 1/2) ∧
      (alookup ms.counterStats (counterPairKey b1 b2) = none →
        getCounterScore cfg stats b1 b2 mapName mode = 1/2)) := by
  constructor
  · intro h
    constructor
    · unfold getSynergyScore
      rw [h]
    · unfold getCounterScore
      rw [h]
  · intro ms hms
    constructor
    · intro hp
      unfold getSynergyScore
      simp only [hms, hp]
    · intro hp
      unfold getCounterScore
      simp only [hms, hp]

theorem synergy_counter_neutral_witness :
    getSynergyScore demoCfg [] "Shelly" "Colt" "m" "g" = 1/2 ∧
    getCounterScore demoCfg [] "Shelly" "Colt" "m" "g" = 1/2 :=
  (synergy_counter_neutral demoCfg [] "Shelly" "Colt" "m" "g").1 rfl

/-- Clamping to the unit interval really lands in the unit interval. -/
theorem clamp01_mem (x : ℚ) : 0 ≤ max 0 (min 1 x) ∧ max 0 (min 1 x) ≤ 1 :=
  ⟨le_max_left 0 _, max_le zero_le_one (min_le_left _ _)⟩

/-- C5: `getWinRate` signals no data exactly when the (map, mode) bucket is
unknown; an unseen brawler in a known bucket gets the configured
low-confidence target; a seen brawler with non-degenerate smoothing and a
positive low-pick-rate threshold gets the Laplace-smoothed rate blended
toward the target by the clamped pick-rate confidence factor and clamped to
the unit interval; and whenever the configured target lies in `[0, 1]` every
returned value lies in `[0, 1]` (in particular for any non-negative wins,
plays and smoothing constant, including zero plays). -/
theorem getWinRate_spec (cfg : AppConfigData) (stats : StatsTable)
    (brawler mapName mode : String) :
    (getWinRate cfg stats brawler mapName mode = none ↔
      getMapModeStats stats mapName mode = none) ∧
    (∀ ms, getMapModeStats stats mapName mode = some ms →
      alookup ms.brawlerStats brawler = none →
      getWinRate cfg stats brawler mapName mode =
        some cfg.lowConfidenceWinRateTarget) ∧
    (∀ ms bs, getMapModeStats stats mapName mode = some ms →
      alookup ms.brawlerStats brawler = some bs →
      0 < bs.plays + cfg.smoothingK → 0 < cfg.lowPickRateThreshold →
      getWinRate cfg stats brawler mapName mode =
        some (max 0 (min 1
          (((bs.wins + cfg.smoothingK * (1/2)) / (bs.plays + cfg.smoothingK)) *
              (max 0 (min 1 (((getPickRate stats brawler mapName mode).getD 0) /
                cfg.lowPickRateThreshold))) +
            cfg.lowConfidenceWinRateTarget *
              (1 - max 0 (min 1 (((getPickRate stats brawler mapName mode).getD 0) /
                cfg.lowPickRateThreshold))))))) ∧
    (0 ≤ cfg.lowConfidenceWinRateTarget → cfg.lowConfidenceWinRateTarget ≤ 1 →
      ∀ q, getWinRate cfg stats brawler mapName mode = some q →
        0 ≤ q ∧ q ≤ 1) := by
  refine ⟨?_, ?_, ?_, ?_⟩
  · unfold getWinRate
    cases h : getMapModeStats stats mapName mode with
    | none => simp
    | some ms =>
      simp only [reduceCtorEq, iff_false]
      cases halk : alookup ms.brawlerStats brawler with
      | none => simp
      | some bs =>
        by_cases hdeg : bs.plays + cfg.smoothingK ≤ 0 <;> simp [hdeg]
  · intro ms hms hbs
    unfold getWinRate
    simp only [hms, hbs]
  · intro ms bs hms hbs hpk hthr
    unfold getWinRate
    simp only [hms, hbs, if_neg (not_le.mpr hpk), if_pos hthr]
  · intro h0 h1 q
    unfold getWinRate
    cases h : getMapModeStats stats mapName mode with
    | none => intro hq; cases hq
    | some ms =>
      cases halk : alookup ms.brawlerStats brawler with
      | none =>
        intro hq
        simp only [halk] at hq
        injection hq with hq
        subst hq
        exact ⟨h0, h1⟩
      | some bs =>
        intro hq
        simp only [halk] at hq
        split_ifs at hq with hdeg
        · injection hq with hq
          subst hq
          exact ⟨h0, h1⟩
        · injection hq with hq
          subst hq
          exact clamp01_mem _
        · injection hq with hq
          subst hq
          exact clamp01_mem _

theorem getWinRate_spec_witness :
    getWinRate demoCfg demoStats "Shelly" "m" "g" = some (2/3) := by
  have hpr : (getPickRate demoStats "Shelly" "m" "g").getD 0 = 2/5 := by
    norm_num [getPickRate, getMapModeStats, alookup, demoStats, demoMMS]
  have h := (getWinRate_spec demoCfg demoStats "Shelly" "m" "g").2.2.1
    demoMMS ⟨3, 4⟩ rfl rfl (by norm_num [demoCfg]) (by norm_num [demoCfg])
  rw [h, hpr]
  norm_num [demoCfg]

theorem ofData_toData (v : BrawlerStatsQ) : ofDataStats (toDataStats v) = v :=
  rfl

theorem roundtrip_pair_map (l : List (String × BrawlerStatsQ)) :
    (l.map (fun p => (p.1, toDataStats p.2))).map
      (fun p => (p.1, ofDataStats p.2)) = l := by
  induction l with
  | nil => rfl
  | cons p rest ih =>
    cases p
    simp [ih, ofData_toData]

theorem stats_cache_roundtrip_eq (tbl : StatsTable) :
    setStatsFromCacheData (getStatsForCache tbl) = tbl := by
  unfold setStatsFromCacheData getStatsForCache
  induction tbl with
  | nil => rfl
  | cons e rest ih =>
    cases e with
    | mk k inner =>
      simp only [List.map_cons, List.cons.injEq, Prod.mk.injEq, true_and]
      refine ⟨?_, ih⟩
      induction inner with
      | nil => rfl
      | cons me rest2 ih2 =>
        cases me with
        | mk k2 ms =>
          simp only [List.map_cons, List.cons.injEq, Prod.mk.injEq, true_and]
          refine ⟨?_, ih2⟩
          cases ms with
          | mk bs ss cs t =>
            simp only [MapModeStatsQ.mk.injEq]
            exact ⟨roundtrip_pair_map bs, roundtrip_pair_map ss,
              roundtrip_pair_map cs, trivial⟩

/-- C6: exporting the statistics table and re-importing it reproduces the
table exactly: identical wins and plays for every brawler, synergy-pair and
counter-pair key, and identical total weighted plays for every (map, mode)
bucket — a lossless round trip. -/
theorem stats_cache_roundtrip (tbl : StatsTable) :
    setStatsFromCacheData (getStatsForCache tbl) = tbl ∧
    ∀ mapName mode ms ms',
      getMapModeStats tbl mapName mode = some ms →
      getMapModeStats (setStatsFromCacheData (getStatsForCache tbl)) mapName
          mode = some ms' →
      (∀ key, alookup ms'.brawlerStats key = alookup ms.brawlerStats key) ∧
      (∀ key, alookup ms'.synergyStats key = alookup ms.synergyStats key) ∧
      (∀ key, alookup ms'.counterStats key = alookup ms.counterStats key) ∧
      ms'.totalWeightedPlays = ms.totalWeightedPlays := by
  have he := stats_cache_roundtrip_eq tbl
  refine ⟨he, ?_⟩
  intro mapName mode ms ms' h1 h2
  rw [he, h1] at h2
  injection h2 with h2
  subst h2
  exact ⟨fun _ => rfl, fun _ => rfl, fun _ => rfl, rfl⟩

theorem stats_cache_roundtrip_witness :
    setStatsFromCacheData (getStatsForCache demoStats) = demoStats ∧
    ∀ key, alookup demoMMS.brawlerStats key = alookup demoMMS.brawlerStats key :=
  ⟨(stats_cache_roundtrip demoStats).1,
    ((stats_cache_roundtrip demoStats).2 "m" "g" demoMMS demoMMS rfl
      (by rw [(stats_cache_roundtrip demoStats).1]; rfl)).1⟩

/-! ### HeuristicScorer (Heuristics.h / Heuristics.cpp)

`predictWinProbabilityModel` combines four rational-valued signals and maps
their weighted sum through the logistic function `1 / (1 + exp(-2 score))`;
only this final step leaves the rationals. -/

structure HeuristicWeightsQ where
  winRate : ℚ
  synergy : ℚ
  counter : ℚ
  pickRate : ℚ
deriving DecidableEq

/-- Team average of `getWinRate` (0.5 fallback), divided by 3 as in the
code. -/
def avgWinRate (cfg : AppConfigData) (stats : StatsTable)
    (mapName modeName : String) (team : List String) : ℚ :=
  (team.map (fun b =>
    (getWinRate cfg stats b mapName modeName).getD (1/2))).sum / 3

/-- The index pairs `i < j` traversed by the synergy loops. -/
def offDiagPairs {α : Type} : List α → List (α × α)
  | [] => []
  | x :: xs => xs.map (fun y => (x, y)) ++ offDiagPairs xs

/-- Model of `calculateAvgSynergyDiff` from `predictWinProbabilityModel`: the average
synergy deviation from 0.5 over the team pairs (0 when there are none). -/
def avgSynergyDiff (cfg : AppConfigData) (stats : StatsTable)
    (mapName modeName : String) (team : List String) : ℚ :=
  if (offDiagPairs team).length = 0 then 0
  else ((offDiagPairs team).map (fun p =>
    getSynergyScore cfg stats p.1 p.2 mapName modeName - 1/2)).sum /
      ((offDiagPairs team).length : ℚ)

/-- All cross pairs (a, b) with a from the first and b from the second team,
in the nested-loop order of the code. -/
def crossPairs {α : Type} : List α → List α → List (α × α)
  | [], _ => []
  | a :: as, bs => bs.map (fun b => (a, b)) ++ crossPairs as bs

/-- The accumulated `t1_vs_t2_sum_diff` of the counter loop. -/
def counterSumDiff (cfg : AppConfigData) (stats : StatsTable)
    (mapName modeName : String) (t1 t2 : List String) : ℚ :=
  ((crossPairs t1 t2).map (fun p =>
    getCounterScore cfg stats p.1 p.2 mapName modeName - 1/2)).sum

/-- The accumulated `max_t1_vs_t2_score_diff` of the counter loop (running
maximum over the forward matchup deviations, started at -1). -/
def counterMaxFwd (cfg : AppConfigData) (stats : StatsTable)
    (mapName modeName : String) (t1 t2 : List String) : ℚ :=
  ((crossPairs t1 t2).map (fun p =>
    getCounterScore cfg stats p.1 p.2 mapName modeName - 1/2)).foldl max (-1)

/-- The accumulated `max_t2_vs_t1_score_diff` of the counter loop (running
maximum over the reversed matchup deviations, started at -1). -/
def counterMaxRev (cfg : AppConfigData) (stats : StatsTable)
    (mapName modeName : String) (t1 t2 : List String) : ℚ :=
  ((crossPairs t1 t2).map (fun p =>
    getCounterScore cfg stats p.2 p.1 mapName modeName - 1/2)).foldl max (-1)

/-- Model of `counterAdvAvg` of the code: average forward counter deviation. -/
def counterAdvAvg (cfg : AppConfigData) (stats : StatsTable)
    (mapName modeName : String) (t1 t2 : List String) : ℚ :=
  if (crossPairs t1 t2).length = 0 then 0
  else counterSumDiff cfg stats mapName modeName t1 t2 /
    ((crossPairs t1 t2).length : ℚ)

/-- Model of `peakCounterAdv` of the code: best forward matchup deviation minus best
reverse matchup deviation. -/
def peakCounterAdv (cfg : AppConfigData) (stats : StatsTable)
    (mapName modeName : String) (t1 t2 : List String) : ℚ :=
  counterMaxFwd cfg stats mapName modeName t1 t2 -
    counterMaxRev cfg stats mapName modeName t1 t2

/-- Model of `totalScoreDiff` of `predictWinProbabilityModel`: the four weighted
signals (the `pickRate` weight slot is reused for the peak counter
advantage). -/
def totalScoreDiff (cfg : AppConfigData) (stats : StatsTable)
    (mapName modeName : String) (w : HeuristicWeightsQ)
    (t1 t2 : List String) : ℚ :=
  w.winRate * (avgWinRate cfg stats mapName modeName t1 -
      avgWinRate cfg stats mapName modeName t2) +
    w.synergy * (avgSynergyDiff cfg stats mapName modeName t1 -
      avgSynergyDiff cfg stats mapName modeName t2) +
    w.counter * counterAdvAvg cfg stats mapName modeName t1 t2 +
    w.pickRate * peakCounterAdv cfg stats mapName modeName t1 t2

/-- The logistic map `1 / (1 + exp(-k x))` with the fixed steepness
`k = 2.0` of the code. -/
noncomputable def sigma2 (x : ℝ) : ℝ :=
  1 / (1 + Real.exp (-(2 : ℝ) * x))

/-- Model of `predictWinProbabilityModel`: 0.5 for incomplete rosters; otherwise the
logistic image of the weighted score difference, clamped to `[0, 1]`. -/
noncomputable def predictWinProbabilityModel (team1 team2 : List String)
    (mapName modeName : String) (stats : StatsTable) (cfg : AppConfigData)
    (evalWeights : HeuristicWeightsQ) : ℝ :=
  if team1.length = 3 ∧ team2.length = 3 then
    max 0 (min 1 (sigma2
      ((totalScoreDiff cfg stats mapName modeName evalWeights team1 team2 : ℚ)
        : ℝ)))
  else 1/2

theorem sigma2_pos (x : ℝ) : 0 < sigma2 x := by
  unfold sigma2
  positivity

theorem sigma2_lt_one (x : ℝ) : sigma2 x < 1 := by
  unfold sigma2
  rw [div_lt_one (by positivity)]
  linarith [Real.exp_pos (-(2 : ℝ) * x)]

theorem clamp_sigma2 (x : ℝ) : max 0 (min 1 (sigma2 x)) = sigma2 x := by
  rw [min_eq_right (le_of_lt (sigma2_lt_one x)),
    max_eq_right (le_of_lt (sigma2_pos x))]

theorem sigma2_neg (x : ℝ) : sigma2 (-x) = 1 - sigma2 x := by
  unfold sigma2
  have hx : -(2 : ℝ) * -x = 2 * x := by ring
  have hx2 : -(2 : ℝ) * x = -(2 * x) := by ring
  rw [hx, hx2]
  have hprod : Real.exp (-(2 * x)) * Real.exp ((2 : ℝ) * x) = 1 := by
    rw [← Real.exp_add]
    norm_num
  have h1 : (0 : ℝ) < 1 + Real.exp (-(2 * x)) := by positivity
  have h2 : (0 : ℝ) < 1 + Real.exp ((2 : ℝ) * x) := by positivity
  field_simp
  linear_combination -hprod

theorem sigma2_strictMono {x y : ℝ} (h : x < y) : sigma2 x < sigma2 y := by
  unfold sigma2
  have h1 : Real.exp (-(2 : ℝ) * y) < Real.exp (-(2 : ℝ) * x) :=
    Real.exp_lt_exp.mpr (by linarith)
  have h2 : (0 : ℝ) < 1 + Real.exp (-(2 : ℝ) * y) := by positivity
  exact one_div_lt_one_div_of_lt h2 (by linarith)

/-- Folding max over the nine cells of a 3-by-3 grid is invariant under
transposing the traversal order. -/
theorem max9_transpose (v x11 x12 x13 x21 x22 x23 x31 x32 x33 : ℚ) :
    max (max (max (max (max (max (max (max (max v x11) x12) x13) x21) x22)
      x23) x31) x32) x33 =
    max (max (max (max (max (max (max (max (max v x11) x21) x31) x12) x22)
      x32) x13) x23) x33 := by
  ac_rfl

/-- C1 (amended): swapping the two complete rosters yields one minus the
original estimate whenever the counter-score table is complementary on the
cross pairs, i.e. `getCounterScore(a, b) + getCounterScore(b, a) = 1` for
every a in one roster and b in the other (in particular whenever no counter
data is present, since both scores are then the neutral 0.5).  Without this
balance condition the identity fails (see the counterexample). -/
theorem predictWinProbabilityModel_antisym (cfg : AppConfigData)
    (stats : StatsTable) (mapName modeName : String) (w : HeuristicWeightsQ)
    (t1 t2 : List String) (h1 : t1.length = 3) (h2 : t2.length = 3)
    (hcomp : ∀ a ∈ t1, ∀ b ∈ t2,
      getCounterScore cfg stats a b mapName modeName +
        getCounterScore cfg stats b a mapName modeName = 1) :
    predictWinProbabilityModel t2 t1 mapName modeName stats cfg w =
      1 - predictWinProbabilityModel t1 t2 mapName modeName stats cfg w := by
  obtain ⟨a1, a2, a3, rfl⟩ := List.length_eq_three.mp h1
  obtain ⟨b1, b2, b3, rfl⟩ := List.length_eq_three.mp h2
  have hc11 := hcomp a1 (by simp) b1 (by simp)
  have hc12 := hcomp a1 (by simp) b2 (by simp)
  have hc13 := hcomp a1 (by simp) b3 (by simp)
  have hc21 := hcomp a2 (by simp) b1 (by simp)
  have hc22 := hcomp a2 (by simp) b2 (by simp)
  have hc23 := hcomp a2 (by simp) b3 (by simp)
  have hc31 := hcomp a3 (by simp) b1 (by simp)
  have hc32 := hcomp a3 (by simp) b2 (by simp)
  have hc33 := hcomp a3 (by simp) b3 (by simp)
  have hM1 : counterMaxFwd cfg stats mapName modeName [b1, b2, b3]
      [a1, a2, a3] =
      counterMaxRev cfg stats mapName modeName [a1, a2, a3] [b1, b2, b3] := by
    simp only [counterMaxFwd, counterMaxRev, crossPairs, List.map_append,
      List.map_cons, List.map_nil, List.foldl_append, List.foldl_cons,
      List.foldl_nil, List.append_nil]
    exact max9_transpose _ _ _ _ _ _ _ _ _ _
  have hM2 : counterMaxRev cfg stats mapName modeName [b1, b2, b3]
      [a1, a2, a3] =
      counterMaxFwd cfg stats mapName modeName [a1, a2, a3] [b1, b2, b3] := by
    simp only [counterMaxFwd, counterMaxRev, crossPairs, List.map_append,
      List.map_cons, List.map_nil, List.foldl_append, List.foldl_cons,
      List.foldl_nil, List.append_nil]
    exact max9_transpose _ _ _ _ _ _ _ _ _ _
  have ht : totalScoreDiff cfg stats mapName modeName w [b1, b2, b3]
      [a1, a2, a3] =
      - totalScoreDiff cfg stats mapName modeName w [a1, a2, a3]
        [b1, b2, b3] := by
    simp only [totalScoreDiff, peakCounterAdv]
    rw [hM1, hM2]
    simp only [counterAdvAvg, counterSumDiff, crossPairs, List.map_append,
      List.map_cons, List.map_nil, List.sum_append, List.sum_cons,
      List.sum_nil, List.length_append, List.length_map, List.length_cons,
      List.length_nil]
    norm_num
    linear_combination (w.counter / 9) *
      (hc11 + hc12 + hc13 + hc21 + hc22 + hc23 + hc31 + hc32 + hc33)
  unfold predictWinProbabilityModel
  rw [if_pos ⟨by simp, by simp⟩, if_pos ⟨by simp, by simp⟩,
    clamp_sigma2, clamp_sigma2, ht]
  have hcast : ((- totalScoreDiff cfg stats mapName modeName w [a1, a2, a3]
      [b1, b2, b3] : ℚ) : ℝ) =
      -((totalScoreDiff cfg stats mapName modeName w [a1, a2, a3]
        [b1, b2, b3] : ℚ) : ℝ) := by
    push_cast
    ring
  rw [hcast, sigma2_neg]

/-- Counter-score table with asymmetric matchup evidence for the pair
(A, X): the forward key carries a weighted win, the reverse key only
weighted plays. -/
def exMMS : MapModeStatsQ :=
  ⟨[], [], [("A|X", ⟨1, 1⟩), ("X|A", ⟨0, 3⟩)], 0⟩

def exStats : StatsTable := [("m", [("g", exMMS)])]

/-- Evaluation weights selecting only the average counter signal. -/
def exW : HeuristicWeightsQ := ⟨0, 0, 1, 0⟩

theorem exScore_AX : getCounterScore demoCfg exStats "A" "X" "m" "g" = 2/3 := by
  unfold getCounterScore
  simp only [show getMapModeStats exStats "m" "g" = some exMMS from rfl,
    show alookup exMMS.counterStats (counterPairKey "A" "X") = some ⟨1, 1⟩
      from rfl, demoCfg]
  rw [if_neg (by norm_num)]
  norm_num [min_def, max_def]

theorem exScore_XA : getCounterScore demoCfg exStats "X" "A" "m" "g" = 1/5 := by
  unfold getCounterScore
  simp only [show getMapModeStats exStats "m" "g" = some exMMS from rfl,
    show alookup exMMS.counterStats (counterPairKey "X" "A") = some ⟨0, 3⟩
      from rfl, demoCfg]
  rw [if_neg (by norm_num)]
  norm_num [min_def, max_def]

theorem exTotal_AB : totalScoreDiff demoCfg exStats "m" "g" exW
    ["A", "B", "C"] ["X", "Y", "Z"] = 1/54 := by
  have mAY : getCounterScore demoCfg exStats "A" "Y" "m" "g" = 1/2 := rfl
  have mAZ : getCounterScore demoCfg exStats "A" "Z" "m" "g" = 1/2 := rfl
  have mBX : getCounterScore demoCfg exStats "B" "X" "m" "g" = 1/2 := rfl
  have mBY : getCounterScore demoCfg exStats "B" "Y" "m" "g" = 1/2 := rfl
  have mBZ : getCounterScore demoCfg exStats "B" "Z" "m" "g" = 1/2 := rfl
  have mCX : getCounterScore demoCfg exStats "C" "X" "m" "g" = 1/2 := rfl
  have mCY : getCounterScore demoCfg exStats "C" "Y" "m" "g" = 1/2 := rfl
  have mCZ : getCounterScore demoCfg exStats "C" "Z" "m" "g" = 1/2 := rfl
  simp only [totalScoreDiff, peakCounterAdv, counterAdvAvg, counterSumDiff,
    crossPairs, List.map_append, List.map_cons, List.map_nil,
    List.sum_append, List.sum_cons, List.sum_nil, List.length_append,
    List.length_map, List.length_cons, List.length_nil, exW,
    exScore_AX, mAY, mAZ, mBX, mBY, mBZ, mCX, mCY, mCZ]
  norm_num

theorem exTotal_BA : totalScoreDiff demoCfg exStats "m" "g" exW
    ["X", "Y", "Z"] ["A", "B", "C"] = -(1/30) := by
  have mXB : getCounterScore demoCfg exStats "X" "B" "m" "g" = 1/2 := rfl
  have mXC : getCounterScore demoCfg exStats "X" "C" "m" "g" = 1/2 := rfl
  have mYA : getCounterScore demoCfg exStats "Y" "A" "m" "g" = 1/2 := rfl
  have mYB : getCounterScore demoCfg exStats "Y" "B" "m" "g" = 1/2 := rfl
  have mYC : getCounterScore demoCfg exStats "Y" "C" "m" "g" = 1/2 := rfl
  have mZA : getCounterScore demoCfg exStats "Z" "A" "m" "g" = 1/2 := rfl
  have mZB : getCounterScore demoCfg exStats "Z" "B" "m" "g" = 1/2 := rfl
  have mZC : getCounterScore demoCfg exStats "Z" "C" "m" "g" = 1/2 := rfl
  simp only [totalScoreDiff, peakCounterAdv, counterAdvAvg, counterSumDiff,
    crossPairs, List.map_append, List.map_cons, List.map_nil,
    List.sum_append, List.sum_cons, List.sum_nil, List.length_append,
    List.length_map, List.length_cons, List.length_nil, exW,
    exScore_XA, mXB, mXC, mYA, mYB, mYC, mZA, mZB, mZC]
  norm_num

/-- C1 (counterexample): with asymmetric counter data and a nonzero
average-counter weight, `predictWinProbabilityModel` is not antisymmetric:
at this input the swapped evaluation differs from one minus the original
(the average counter deviation is 1/54 one way and -1/30 the other, because
`getCounterScore(A, X) + getCounterScore(X, A) = 2/3 + 1/5 ≠ 1`). -/
theorem predictWinProbabilityModel_not_antisym :
    predictWinProbabilityModel ["A", "B", "C"] ["X", "Y", "Z"] "m" "g"
        exStats demoCfg exW ≠
      1 - predictWinProbabilityModel ["X", "Y", "Z"] ["A", "B", "C"] "m" "g"
        exStats demoCfg exW := by
  unfold predictWinProbabilityModel
  rw [if_pos ⟨by simp, by simp⟩, if_pos ⟨by simp, by simp⟩,
    exTotal_AB, exTotal_BA, clamp_sigma2, clamp_sigma2]
  have c1 : (((1 : ℚ)/54 : ℚ) : ℝ) = 1/54 := by norm_num
  have c2 : ((-(1/30) : ℚ) : ℝ) = -(1/30 : ℝ) := by norm_num
  rw [c1, c2, sigma2_neg]
  have c3 : (1 : ℝ) - (1 - sigma2 (1/30)) = sigma2 (1/30) := by ring
  rw [c3]
  exact ne_of_lt (sigma2_strictMono (by norm_num))

theorem predictWinProbabilityModel_antisym_witness :
    predictWinProbabilityModel ["X", "Y", "Z"] ["A", "B", "C"] "m" "g"
        [] demoCfg exW =
      1 - predictWinProbabilityModel ["A", "B", "C"] ["X", "Y", "Z"] "m" "g"
        [] demoCfg exW :=
  predictWinProbabilityModel_antisym demoCfg [] "m" "g" exW
    ["A", "B", "C"] ["X", "Y", "Z"] (by simp) (by simp)
    (by
      intro a _ b _
      norm_num [getCounterScore, getMapModeStats, alookup])

/-! ### MCTS result ranking (MCTS.h / MCTS.cpp)

A root child is reported through the read-only projection `MCTSResult`
(move, visit count, win rate).  `getMctsResults` reads a snapshot of the
root children, keeps those with positive visits, sorts by visit count
descending with ties broken by win rate descending, and truncates to the
configured result count. -/

structure MCTSResultQ where
  move : String
  visits : Int
  winRate : ℚ
deriving DecidableEq

/-- A snapshot of one root child: its move, loaded visit counter and loaded
cumulative score. -/
structure ChildSnapshot where
  move : String
  visits : Int
  wins : ℚ
deriving DecidableEq

/-- The strict-weak-order comparator passed to `std::sort`, read as a
"comes no later than" relation: more visits first, ties broken by higher
win rate. -/
def mctsResultLE (a b : MCTSResultQ) : Prop :=
  b.visits < a.visits ∨ (a.visits = b.visits ∧ b.winRate ≤ a.winRate)

instance : DecidableRel mctsResultLE := fun a b => by
  unfold mctsResultLE
  infer_instance

instance : IsTotal MCTSResultQ mctsResultLE where
  total a b := by
    unfold mctsResultLE
    rcases lt_trichotomy a.visits b.visits with h | h | h
    · exact Or.inr (Or.inl h)
    · rcases le_total b.winRate a.winRate with hw | hw
      · exact Or.inl (Or.inr ⟨h, hw⟩)
      · exact Or.inr (Or.inr ⟨h.symm, hw⟩)
    · exact Or.inl (Or.inl h)

instance : IsTrans MCTSResultQ mctsResultLE where
  trans a b c hab hbc := by
    unfold mctsResultLE at *
    rcases hab with h1 | ⟨h1, h1w⟩ <;> rcases hbc with h2 | ⟨h2, h2w⟩
    · exact Or.inl (lt_trans h2 h1)
    · exact Or.inl (h2 ▸ h1)
    · exact Or.inl (by rw [h1]; exact h2)
    · exact Or.inr ⟨h1.trans h2, h2w.trans h1w⟩

/-- The filtered, projected and sorted root-children report (the loop and
`std::sort` call of `MCTSManager::getMctsResults`): children with positive
visits become results with win rate wins/visits. -/
def mctsSortedResults (children : List ChildSnapshot) : List MCTSResultQ :=
  List.insertionSort mctsResultLE
    ((children.filter (fun c => decide (0 < c.visits))).map (fun c =>
      ⟨c.move, c.visits, if 0 < c.visits then c.wins / (c.visits : ℚ) else 0⟩))

/-- Model of `MCTSManager::getMctsResults`: the sorted report, resized to the
configured result count when it is longer. -/
def getMctsResults (children : List ChildSnapshot) (limit : Int) :
    List MCTSResultQ :=
  if limit < ((mctsSortedResults children).length : Int) then
    (mctsSortedResults children).take limit.toNat
  else mctsSortedResults children

/-- The final ranking computed and emitted by `runMctsControllerTask` after
the stop flag is raised (MCTS.cpp line 355): a call to `getMctsResults`. -/
def controllerFinalRanking (children : List ChildSnapshot) (limit : Int) :
    List MCTSResultQ :=
  getMctsResults children limit

/-- The intermediate ranking emitted by the controller poll loop
(MCTS.cpp line 331): the same call to `getMctsResults`. -/
def controllerIntermediateRanking (children : List ChildSnapshot)
    (limit : Int) : List MCTSResultQ :=
  getMctsResults children limit

/-- C8: for every snapshot of the root children and non-negative configured
result count, the ranking produced by `getMctsResults` is sorted by visit
count descending with ties broken by win rate descending, contains at most
the configured number of entries, and both the final ranking and the
intermediate rankings of the controller are computed by this same
function. -/
theorem getMctsResults_spec (children : List ChildSnapshot) (limit : Int)
    (hl : 0 ≤ limit) :
    List.Sorted mctsResultLE (getMctsResults children limit) ∧
    ((getMctsResults children limit).length : Int) ≤ limit ∧
    controllerFinalRanking children limit = getMctsResults children limit ∧
    controllerIntermediateRanking children limit =
      getMctsResults children limit := by
  have hs : List.Sorted mctsResultLE (mctsSortedResults children) :=
    List.sorted_insertionSort mctsResultLE _
  refine ⟨?_, ?_, rfl, rfl⟩
  · unfold getMctsResults
    split_ifs with h
    · exact List.Pairwise.sublist (List.take_sublist _ _) hs
    · exact hs
  · unfold getMctsResults
    split_ifs with h
    · rw [List.length_take]
      push_cast
      omega
    · omega

def demoChildren : List ChildSnapshot :=
  [⟨"Shelly", 2, 1⟩, ⟨"Colt", 5, 2⟩, ⟨"Bull", 0, 0⟩]

theorem getMctsResults_spec_witness :
    List.Sorted mctsResultLE (getMctsResults demoChildren 2) ∧
    ((getMctsResults demoChildren 2).length : Int) ≤ 2 ∧
    controllerFinalRanking demoChildren 2 = getMctsResults demoChildren 2 ∧
    controllerIntermediateRanking demoChildren 2 =
      getMctsResults demoChildren 2 :=
  getMctsResults_spec demoChildren 2 (by decide)

end BSDraft
